import Mathlib

/-!
# The cleanup registry of `CleanupSuite` (cleanup.go)

A shallow embedding of the Go type `CleanupSuite` and of its methods, and the
properties of the registry proved over it.

Modelling choices.

* A Go closure cannot be stored in a Lean structure that the closure itself may
  change, so a cleanup function is a piece of data (`CleanupFunc`) and calling
  it is an interpreter (`CleanupFunc.call`).  A function written by the test
  author is `CleanupFunc.user id`; what it does is given by `Host.run`, an
  arbitrary function on the whole `World`, the registry included.  The closures
  `func(*gc.C) { restore() }` built by the patch helpers are
  `CleanupFunc.restore r`.
* Cleanup functions return: one that ends the goroutine (`c.Fatal`) or never
  returns is outside the model.
* `Exec` adds to the world the log of the cleanup functions called so far.  The
  log is out of reach of the cleanup functions themselves.
* A Go slice is a `List`; `append(stack, f)` is `stack ++ [f]`.
-/

namespace Testing

/-! ## Values that the patch helpers save and restore -/

/-- A Go type, named by a number. -/
abbrev GoType := Nat

/-- A Go value boxed in an `interface{}`: its dynamic type and its contents. -/
structure Value where
  typ : GoType
  data : Nat
deriving DecidableEq, Repr

/-- A variable that `PatchValue` is pointed at: its declared type and the
value it holds. -/
structure Variable where
  typ : GoType
  val : Value
deriving DecidableEq, Repr

/-- A value of type `func(cmd *exec.Cmd) ([]byte, error)`: either a function of
the program under test, or the stub installed by `HookCommandOutput`. -/
inductive OutputFunc where
  | real (id : Nat)
  | stub (output : List Nat) (err : Option String)
deriving DecidableEq, Repr

/-- The process environment: the value of each variable, `none` when unset. -/
abbrev Env := String → Option String

/-- `os.Setenv`. -/
def setenv (env : Env) (name value : String) : Env :=
  fun k => if k = name then some value else env k

/-- `os.Unsetenv`. -/
def unsetenv (env : Env) (name : String) : Env :=
  fun k => if k = name then none else env k

/-- `os.Getenv`: the empty string for a variable that is unset. -/
def getenv (env : Env) (name : String) : String :=
  (env name).getD ""

/-- The `Restorer` closures returned by the package-level patch functions, as
data: what each one saved. -/
inductive Restorer where
  | env (name : String) (old : Option String)
  | value (dest : Nat) (old : Value)
  | hook (outputFunc : Nat) (old : OutputFunc)
deriving DecidableEq, Repr

/-! ## The registry -/

/-- `type CleanupFunc func(*gc.C)`. -/
inductive CleanupFunc where
  | user (id : Nat)
  | restore (r : Restorer)
deriving DecidableEq, Repr

/-- `type cleanupStack []CleanupFunc`. -/
abbrev cleanupStack := List CleanupFunc

/-- `type CleanupSuite struct`. -/
structure CleanupSuite where
  testStack : cleanupStack
  suiteStack : cleanupStack
  setupSuite : Bool
deriving DecidableEq, Repr

/-- Everything a cleanup function can read and write: the suite, the process
environment, the patchable variables and the command hooks. -/
structure World where
  suite : CleanupSuite
  env : Env
  vars : Nat → Variable
  hooks : Nat → OutputFunc

/-- What the cleanup functions written by the test author do when called. -/
structure Host where
  run : Nat → World → World

/-- A world together with the log of the cleanup functions called so far,
oldest first. -/
structure Exec where
  world : World
  calls : List CleanupFunc

/-- `func (s *CleanupSuite) SetUpSuite(c *gc.C)`. -/
def CleanupSuite.SetUpSuite (s : CleanupSuite) : CleanupSuite :=
  { s with suiteStack := [], setupSuite := true }

/-- `func (s *CleanupSuite) SetUpTest(c *gc.C)`. -/
def CleanupSuite.SetUpTest (s : CleanupSuite) : CleanupSuite :=
  { s with setupSuite := false, testStack := [] }

/-- `func (s *CleanupSuite) AddCleanup(cleanup CleanupFunc)`. -/
def CleanupSuite.AddCleanup (s : CleanupSuite) (cleanup : CleanupFunc) : CleanupSuite :=
  { s with testStack := s.testStack ++ [cleanup] }

/-- `func (s *CleanupSuite) AddSuiteCleanup(cleanup CleanupFunc)`. -/
def CleanupSuite.AddSuiteCleanup (s : CleanupSuite) (cleanup : CleanupFunc) : CleanupSuite :=
  { s with suiteStack := s.suiteStack ++ [cleanup] }

/-- Calling a `Restorer`: it puts back what it saved. -/
def Restorer.run : Restorer → World → World
  | .env name (some old), w => { w with env := setenv w.env name old }
  | .env name none, w => { w with env := unsetenv w.env name }
  | .value dest old, w =>
      { w with vars := fun k => if k = dest then { w.vars dest with val := old } else w.vars k }
  | .hook outputFunc old, w =>
      { w with hooks := fun k => if k = outputFunc then old else w.hooks k }

/-- Calling a cleanup function. -/
def CleanupFunc.call (h : Host) : CleanupFunc → World → World
  | .user id, w => h.run id w
  | .restore r, w => r.run w

/-- One iteration of the loop body of `callStack`, `stack[i](c)`: the function
is called and the call is logged. -/
def Exec.invoke (h : Host) (f : CleanupFunc) (e : Exec) : Exec :=
  { world := f.call h e.world, calls := e.calls ++ [f] }

/-- The loop `for i := len(stack) - 1; i >= 0; i--` of `callStack`, with
`n = i + 1`.  `stack` is the slice value the caller passed: what the called
functions do to the suite does not change it.  An index out of range does not
occur for `n ≤ len(stack)`. -/
def callStackLoop (h : Host) (stack : cleanupStack) : Nat → Exec → Exec
  | 0, e => e
  | i + 1, e =>
      match stack.get? i with
      | some f => callStackLoop h stack i (e.invoke h f)
      | none => e

/-- `func (s *CleanupSuite) callStack(c *gc.C, stack cleanupStack)`. -/
def CleanupSuite.callStack (h : Host) (stack : cleanupStack) (e : Exec) : Exec :=
  callStackLoop h stack stack.length e

/-- `func (s *CleanupSuite) TearDownSuite(c *gc.C)`. -/
def CleanupSuite.TearDownSuite (h : Host) (e : Exec) : Exec :=
  let e1 := CleanupSuite.callStack h e.world.suite.suiteStack e
  { e1 with world := { e1.world with suite := { e1.world.suite with setupSuite := false } } }

/-- `func (s *CleanupSuite) TearDownTest(c *gc.C)`. -/
def CleanupSuite.TearDownTest (h : Host) (e : Exec) : Exec :=
  CleanupSuite.callStack h e.world.suite.testStack e

/-- The lifecycle hooks that call no cleanup function, on an `Exec`: the suite
changes, the log does not. -/
def Exec.onSuite (f : CleanupSuite → CleanupSuite) (e : Exec) : Exec :=
  { e with world := { e.world with suite := f e.world.suite } }

/-- A run of `AddCleanup` calls, in the order of the list. -/
def addCleanups (s : CleanupSuite) (fs : List CleanupFunc) : CleanupSuite :=
  fs.foldl CleanupSuite.AddCleanup s

/-! ## The package-level patch functions -/

/-- Modelled from the spec: the package-level `PatchEnvironment` is not in
cleanup.go.  It saves the prior value of `name` or its absence, sets the
variable, and returns a closure that restores the saved value or unsets the
variable. -/
def PatchEnvironment (w : World) (name value : String) : World × Restorer :=
  ({ w with env := setenv w.env name value }, Restorer.env name (w.env name))

/-- The separator of the entries of the search path (`os.PathListSeparator`). -/
def pathListSeparator : String := ":"

/-- Modelled from the spec: the package-level `PatchEnvPathPrepend` is not in
cleanup.go.  It reads the current path variable, prepends `dir` plus the
separator, and returns a closure that restores the original string. -/
def PatchEnvPathPrepend (w : World) (dir : String) : World × Restorer :=
  let old := getenv w.env "PATH"
  ({ w with env := setenv w.env "PATH" (dir ++ pathListSeparator ++ old) },
    Restorer.env "PATH" (some old))

/-- Modelled from the spec: the package-level `PatchValue` is not in
cleanup.go.  It records the current value of the destination, assigns `value`,
and returns a closure that restores the original value; it fails (`none`, a
panic in Go) if the type of `value` is not assignable to the type of the
destination.  `assignable v d` is the assignability of type `v` to type `d`. -/
def PatchValue (assignable : GoType → GoType → Bool) (w : World) (dest : Nat) (value : Value) :
    Option (World × Restorer) :=
  if assignable value.typ (w.vars dest).typ then
    some ({ w with vars := fun k => if k = dest then { w.vars dest with val := value } else w.vars k },
      Restorer.value dest (w.vars dest).val)
  else
    none

/-- Modelled from the spec: the package-level `HookCommandOutput` is not in
cleanup.go.  It replaces the command-execution hook with a stub returning the
fixed `output` and `err`, and returns a closure that restores the original
hook.  The notification channel it also returns is left out. -/
def HookCommandOutput (w : World) (outputFunc : Nat) (output : List Nat) (err : Option String) :
    World × Restorer :=
  ({ w with hooks := fun k => if k = outputFunc then OutputFunc.stub output err else w.hooks k },
    Restorer.hook outputFunc (w.hooks outputFunc))

/-! ## The patch helpers of the suite -/

/-- `func (s *CleanupSuite) PatchEnvironment(name, value string)`. -/
def CleanupSuite.PatchEnvironment (w : World) (name value : String) : World :=
  let p := Testing.PatchEnvironment w name value
  if p.1.suite.setupSuite then
    { p.1 with suite := p.1.suite.AddSuiteCleanup (CleanupFunc.restore p.2) }
  else
    { p.1 with suite := p.1.suite.AddCleanup (CleanupFunc.restore p.2) }

/-- `func (s *CleanupSuite) PatchEnvPathPrepend(dir string)`. -/
def CleanupSuite.PatchEnvPathPrepend (w : World) (dir : String) : World :=
  let p := Testing.PatchEnvPathPrepend w dir
  if p.1.suite.setupSuite then
    { p.1 with suite := p.1.suite.AddSuiteCleanup (CleanupFunc.restore p.2) }
  else
    { p.1 with suite := p.1.suite.AddCleanup (CleanupFunc.restore p.2) }

/-- `func (s *CleanupSuite) PatchValue(dest, value interface{})`.  A panic of
the package-level `PatchValue` leaves the method at its first line. -/
def CleanupSuite.PatchValue (assignable : GoType → GoType → Bool) (w : World) (dest : Nat)
    (value : Value) : Option World :=
  match Testing.PatchValue assignable w dest value with
  | none => none
  | some p =>
      if p.1.suite.setupSuite then
        some { p.1 with suite := p.1.suite.AddSuiteCleanup (CleanupFunc.restore p.2) }
      else
        some { p.1 with suite := p.1.suite.AddCleanup (CleanupFunc.restore p.2) }

/-- `func (s *CleanupSuite) HookCommandOutput(outputFunc, output, err)`, without
the channel it returns. -/
def CleanupSuite.HookCommandOutput (w : World) (outputFunc : Nat) (output : List Nat)
    (err : Option String) : World :=
  let p := Testing.HookCommandOutput w outputFunc output err
  { p.1 with suite := p.1.suite.AddCleanup (CleanupFunc.restore p.2) }

/-- A run of `s.PatchEnvironment(name, value)` calls, in the order of the list. -/
def patchEnvironments (w : World) (ps : List (String × String)) : World :=
  ps.foldl (fun w p => CleanupSuite.PatchEnvironment w p.1 p.2) w

/-! ## Concrete inputs -/

/-- A host whose cleanup functions do nothing. -/
def idleHost : Host := { run := fun _ w => w }

/-- A world with the given suite, an empty environment, variables of type 0
holding 0, and every hook at its real function. -/
def blankWorld (s : CleanupSuite) : World :=
  { suite := s, env := fun _ => none, vars := fun _ => { typ := 0, val := { typ := 0, data := 0 } },
    hooks := fun k => OutputFunc.real k }

/-- Assignability of identical types only. -/
def sameType (v d : GoType) : Bool := v == d

/-- A suite with both stacks empty and the given phase flag. -/
def emptySuite (flag : Bool) : CleanupSuite :=
  { testStack := [], suiteStack := [], setupSuite := flag }

/-- A world with an empty log of calls. -/
def start (w : World) : Exec := { world := w, calls := [] }

/-- The test phase, with user function 0 on the test stack and user function 1
on the suite stack, and nothing called yet. -/
def twoStacks : Exec :=
  start (blankWorld
    { testStack := [CleanupFunc.user 0], suiteStack := [CleanupFunc.user 1], setupSuite := false })

/-- The suite phase, with user function 7 on the suite stack. -/
def suitePhaseWorld : World :=
  blankWorld { testStack := [], suiteStack := [CleanupFunc.user 7], setupSuite := true }

/-- The result of `s.PatchValue(&var3, 5)` in `suitePhaseWorld`. -/
def suitePhasePatched : World :=
  { suite :=
      { testStack := [],
        suiteStack :=
          [CleanupFunc.user 7, CleanupFunc.restore (Restorer.value 3 { typ := 0, data := 0 })],
        setupSuite := true },
    env := suitePhaseWorld.env,
    vars := fun k =>
      if k = 3 then { suitePhaseWorld.vars 3 with val := { typ := 0, data := 5 } }
      else suitePhaseWorld.vars k,
    hooks := suitePhaseWorld.hooks }

/-- The test phase, with user function 4 on the test stack. -/
def testPhaseWorld : World :=
  blankWorld { testStack := [CleanupFunc.user 4], suiteStack := [], setupSuite := false }

/-- The world right after `SetUpSuite` on a fresh suite. -/
def afterSetUpSuite : World :=
  { blankWorld (emptySuite false) with suite := (emptySuite false).SetUpSuite }

/-- The world after `SetUpSuite` and then `s.HookCommandOutput(&hook0, [1 2], nil)`. -/
def hookedInSetUpSuite : World :=
  CleanupSuite.HookCommandOutput afterSetUpSuite 0 [1, 2] none

/-- The rest of the suite after `hookedInSetUpSuite`: one test (`SetUpTest`,
`TearDownTest`) and then `TearDownSuite`, with cleanup functions that do
nothing. -/
def hookedSuiteRun : Exec :=
  CleanupSuite.TearDownSuite idleHost
    (CleanupSuite.TearDownTest idleHost
      (Exec.onSuite CleanupSuite.SetUpTest (start hookedInSetUpSuite)))

/-- The state of a test after `SetUpTest` and the `AddCleanup` calls of `fs`, in
a world `w` and with the log `log` of earlier calls. -/
def afterAddCleanups (w : World) (fs : List CleanupFunc) (log : List CleanupFunc) : Exec :=
  { world := { w with suite := addCleanups w.suite.SetUpTest fs }, calls := log }

/-- The registration made by a patch helper, by the phase flag: `f` is appended
to the suite stack of `w` and the test stack is unchanged if the flag of `w`
is set, otherwise `f` is appended to the test stack and the suite stack is
unchanged; the flag is unchanged. -/
def registersByPhase (w w1 : World) (f : CleanupFunc) : Prop :=
  w1.suite.setupSuite = w.suite.setupSuite ∧
    if w.suite.setupSuite = true then
      w1.suite.suiteStack = w.suite.suiteStack ++ [f] ∧ w1.suite.testStack = w.suite.testStack
    else
      w1.suite.testStack = w.suite.testStack ++ [f] ∧ w1.suite.suiteStack = w.suite.suiteStack

/-! ## Runs of the lifecycle -/

/-- The world when a call of `s.PatchValue` is over, by return or by panic.  The
method has no statement before its call of the package-level `PatchValue`, and
that function, as modelled, fails at its assignability check, before it
assigns: a panic leaves the world as the call found it. -/
def worldAfterPatchValue (assignable : GoType → GoType → Bool) (w : World) (dest : Nat)
    (value : Value) : World :=
  (CleanupSuite.PatchValue assignable w dest value).getD w

/-- A call of the suite that registers a cleanup function. -/
inductive Registration where
  | addCleanup (f : CleanupFunc)
  | patchEnvironment (name value : String)
  | patchEnvPathPrepend (dir : String)
  | patchValue (dest : Nat) (value : Value)
  | hookCommandOutput (outputFunc : Nat) (output : List Nat) (err : Option String)
deriving DecidableEq, Repr

/-- Making the call in the world `w`; `none` when it panics. -/
def Registration.apply (assignable : GoType → GoType → Bool) (w : World) :
    Registration → Option World
  | .addCleanup f => some { w with suite := w.suite.AddCleanup f }
  | .patchEnvironment name value => some (CleanupSuite.PatchEnvironment w name value)
  | .patchEnvPathPrepend dir => some (CleanupSuite.PatchEnvPathPrepend w dir)
  | .patchValue dest value => CleanupSuite.PatchValue assignable w dest value
  | .hookCommandOutput outputFunc output err =>
      some (CleanupSuite.HookCommandOutput w outputFunc output err)

/-- The cleanup function that the call hands to the registry when it is made
in the world `w`: the argument of `AddCleanup`, or the closure around the
restorer that the package-level function returns. -/
def Registration.registered (w : World) : Registration → CleanupFunc
  | .addCleanup f => f
  | .patchEnvironment name value => CleanupFunc.restore (Testing.PatchEnvironment w name value).2
  | .patchEnvPathPrepend dir => CleanupFunc.restore (Testing.PatchEnvPathPrepend w dir).2
  | .patchValue dest _ => CleanupFunc.restore (Restorer.value dest (w.vars dest).val)
  | .hookCommandOutput outputFunc output err =>
      CleanupFunc.restore (Testing.HookCommandOutput w outputFunc output err).2

/-- The calls of the three helpers `PatchEnvironment`, `PatchEnvPathPrepend` and
`PatchValue`. -/
def Registration.isPatch : Registration → Bool
  | .patchEnvironment _ _ => true
  | .patchEnvPathPrepend _ => true
  | .patchValue _ _ => true
  | .addCleanup _ => false
  | .hookCommandOutput _ _ _ => false

/-- A run of registering calls, in the order of the list: the world after the
last one and the functions handed to the registry, in order; `none` when a
call panics. -/
def register (assignable : GoType → GoType → Bool) :
    List Registration → World → Option (World × List CleanupFunc)
  | [], w => some (w, [])
  | r :: rs, w =>
      match r.apply assignable w with
      | none => none
      | some w1 =>
          match register assignable rs w1 with
          | none => none
          | some p => some (p.1, r.registered w :: p.2)

/-- What is recorded of one teardown: the functions registered for it, in the
order of registration, and the calls it made, in the order it made them. -/
structure Phase where
  registered : List CleanupFunc
  called : List CleanupFunc
deriving DecidableEq, Repr

/-- One test cycle: `SetUpTest`, the registering calls of the test, then
`TearDownTest`. -/
def runTest (h : Host) (assignable : GoType → GoType → Bool) (regs : List Registration)
    (e : Exec) : Option (Exec × Phase) :=
  match register assignable regs (Exec.onSuite CleanupSuite.SetUpTest e).world with
  | none => none
  | some p =>
      some (CleanupSuite.TearDownTest h { world := p.1, calls := e.calls },
        { registered := p.2,
          called := (CleanupSuite.TearDownTest h { world := p.1, calls := e.calls }).calls.drop
            e.calls.length })

/-- The test cycles of a suite, one after the other. -/
def runTests (h : Host) (assignable : GoType → GoType → Bool) :
    List (List Registration) → Exec → Option (Exec × List Phase)
  | [], e => some (e, [])
  | t :: ts, e =>
      match runTest h assignable t e with
      | none => none
      | some p =>
          match runTests h assignable ts p.1 with
          | none => none
          | some q => some (q.1, p.2 :: q.2)

/-- What is recorded of a whole suite. -/
structure SuiteRun where
  final : Exec
  suitePhase : Phase
  tests : List Phase

/-- The lifecycle of a suite: `SetUpSuite`, the registering calls of the suite
setup, the test cycles, then `TearDownSuite`. -/
def runSuite (h : Host) (assignable : GoType → GoType → Bool) (suiteRegs : List Registration)
    (tests : List (List Registration)) (e : Exec) : Option SuiteRun :=
  match register assignable suiteRegs (Exec.onSuite CleanupSuite.SetUpSuite e).world with
  | none => none
  | some p =>
      match runTests h assignable tests { world := p.1, calls := e.calls } with
      | none => none
      | some q =>
          some
            { final := CleanupSuite.TearDownSuite h q.1,
              suitePhase :=
                { registered := p.2,
                  called := (CleanupSuite.TearDownSuite h q.1).calls.drop q.1.calls.length },
              tests := q.2 }

/-- A host whose user function 0 registers user function 9 with `AddCleanup`,
whose user function 1 registers user function 9 with `AddSuiteCleanup`, and
whose other user functions do nothing. -/
def registeringHost : Host :=
  { run := fun id w =>
      if id = 0 then { w with suite := w.suite.AddCleanup (CleanupFunc.user 9) }
      else if id = 1 then { w with suite := w.suite.AddSuiteCleanup (CleanupFunc.user 9) }
      else w }

/-- A value of type 1, not assignable by `sameType` to the variables of
`blankWorld`, which have type 0. -/
def wrongTypeValue : Value := { typ := 1, data := 5 }

/-- The registering calls of the suite setup of `sampleRun`. -/
def sampleSuiteRegs : List Registration :=
  [Registration.patchEnvironment "FOO" "bar", Registration.patchValue 3 { typ := 0, data := 5 }]

/-- The tests of `sampleRun`: the registering calls of each. -/
def sampleTests : List (List Registration) :=
  [[Registration.addCleanup (CleanupFunc.user 4), Registration.patchEnvironment "FOO" "baz"],
    [Registration.hookCommandOutput 0 [1, 2] none, Registration.addCleanup (CleanupFunc.user 4)]]

/-- A suite setup that calls `s.HookCommandOutput(&hook0, [1 2], nil)`. -/
def hookSuiteRegs : List Registration :=
  [Registration.hookCommandOutput 0 [1, 2] none]

/-- One test, which registers user function 4 with `AddCleanup`. -/
def hookTests : List (List Registration) :=
  [[Registration.addCleanup (CleanupFunc.user 4)]]

/-! ## The loop of `callStack` -/

/-- Calling the functions of a list one after the other, first to last. -/
def invokeAll (h : Host) (fs : List CleanupFunc) (e : Exec) : Exec :=
  fs.foldl (fun e f => e.invoke h f) e

theorem invokeAll_nil (h : Host) (e : Exec) : invokeAll h [] e = e := rfl

theorem invokeAll_cons (h : Host) (f : CleanupFunc) (fs : List CleanupFunc) (e : Exec) :
    invokeAll h (f :: fs) e = invokeAll h fs (e.invoke h f) := rfl

theorem invokeAll_append (h : Host) (fs gs : List CleanupFunc) (e : Exec) :
    invokeAll h (fs ++ gs) e = invokeAll h gs (invokeAll h fs e) := by
  simp [invokeAll, List.foldl_append]

theorem callStackLoop_eq (h : Host) (stack : cleanupStack) :
    ∀ (n : Nat) (e : Exec), n ≤ stack.length →
      callStackLoop h stack n e = invokeAll h (stack.take n).reverse e := by
  intro n
  induction n with
  | zero => intro e _; simp [callStackLoop, invokeAll]
  | succ i ih =>
    intro e hi
    have hlt : i < stack.length := hi
    have hget : stack.get? i = some (stack.get ⟨i, hlt⟩) := List.get?_eq_get hlt
    have hget2 : stack[i]? = some (stack.get ⟨i, hlt⟩) := by
      rw [← List.get?_eq_getElem?]; exact hget
    rw [callStackLoop, hget]
    simp only
    rw [ih _ (Nat.le_of_lt hlt), List.take_succ, hget2, Option.toList, List.reverse_append,
      List.reverse_singleton, List.singleton_append, invokeAll_cons]

/-- The loop of `callStack` calls the functions of the stack from the last one
to the first one. -/
theorem callStack_eq (h : Host) (stack : cleanupStack) (e : Exec) :
    CleanupSuite.callStack h stack e = invokeAll h stack.reverse e := by
  rw [CleanupSuite.callStack, callStackLoop_eq h stack _ e (Nat.le_refl _), List.take_length]

theorem invokeAll_calls (h : Host) (fs : List CleanupFunc) :
    ∀ e : Exec, (invokeAll h fs e).calls = e.calls ++ fs := by
  induction fs with
  | nil => intro e; simp [invokeAll]
  | cons f fs ih => intro e; rw [invokeAll_cons, ih]; simp [Exec.invoke]

theorem callStack_calls (h : Host) (stack : cleanupStack) (e : Exec) :
    (CleanupSuite.callStack h stack e).calls = e.calls ++ stack.reverse := by
  rw [callStack_eq, invokeAll_calls]

theorem addCleanups_testStack (fs : List CleanupFunc) :
    ∀ s : CleanupSuite, (addCleanups s fs).testStack = s.testStack ++ fs := by
  induction fs with
  | nil => intro s; simp [addCleanups]
  | cons f fs ih =>
    intro s
    have := ih (s.AddCleanup f)
    simp only [addCleanups, List.foldl_cons] at this ⊢
    rw [this]; simp [CleanupSuite.AddCleanup]

/-! ## Calls made by the teardowns -/

theorem tearDownTest_calls (h : Host) (e : Exec) :
    (CleanupSuite.TearDownTest h e).calls = e.calls ++ e.world.suite.testStack.reverse := by
  rw [CleanupSuite.TearDownTest, callStack_calls]

theorem tearDownSuite_calls (h : Host) (e : Exec) :
    (CleanupSuite.TearDownSuite h e).calls = e.calls ++ e.world.suite.suiteStack.reverse := by
  simp [CleanupSuite.TearDownSuite, callStack_calls]

/-! ## What the restore closures leave alone -/

theorem Restorer.run_suite (r : Restorer) (w : World) : (r.run w).suite = w.suite := by
  cases r with
  | env name old => cases old <;> rfl
  | value dest old => rfl
  | hook outputFunc old => rfl

theorem CleanupFunc.call_suite (h : Host) (hframe : ∀ id w, (h.run id w).suite = w.suite)
    (f : CleanupFunc) (w : World) : (f.call h w).suite = w.suite := by
  cases f with
  | user id => exact hframe id w
  | restore r => exact Restorer.run_suite r w

theorem invokeAll_suite (h : Host) (hframe : ∀ id w, (h.run id w).suite = w.suite)
    (fs : List CleanupFunc) : ∀ e : Exec, (invokeAll h fs e).world.suite = e.world.suite := by
  induction fs with
  | nil => intro e; rfl
  | cons f fs ih =>
    intro e
    rw [invokeAll_cons, ih]
    exact CleanupFunc.call_suite h hframe f e.world

/-- When no function of `fs` changes the variable `name`, calling them all
leaves it as it was. -/
theorem invokeAll_env_of_keep (h : Host) (name : String) (fs : List CleanupFunc)
    (hkeep : ∀ f ∈ fs, ∀ w : World, (f.call h w).env name = w.env name) :
    ∀ e : Exec, (invokeAll h fs e).world.env name = e.world.env name := by
  induction fs with
  | nil => intro e; rfl
  | cons f fs ih =>
    intro e
    rw [invokeAll_cons, ih (fun g hg => hkeep g (List.mem_cons_of_mem _ hg))]
    exact hkeep f (List.mem_cons_self _ _) e.world

/-! ## Patching the environment and undoing it -/

theorem restore_env_after_setenv (env : Env) (name value : String) (w : World)
    (hw : w.env = setenv env name value) :
    ((Restorer.env name (env name)).run w).env = env := by
  funext k
  cases hold : env name with
  | none =>
    simp only [Restorer.run, hw, unsetenv, setenv]
    by_cases hk : k = name
    · simp [hk, hold]
    · simp [hk]
  | some old =>
    simp only [Restorer.run, hw, setenv]
    by_cases hk : k = name
    · simp [hk, hold]
    · simp [hk]

theorem patchEnvironment_test_phase (w : World) (name value : String)
    (hflag : w.suite.setupSuite = false) :
    (CleanupSuite.PatchEnvironment w name value).suite
        = w.suite.AddCleanup (CleanupFunc.restore (Restorer.env name (w.env name))) ∧
      (CleanupSuite.PatchEnvironment w name value).env = setenv w.env name value := by
  simp [CleanupSuite.PatchEnvironment, Testing.PatchEnvironment, hflag]

theorem patchEnvironment_suite_phase (w : World) (name value : String)
    (hflag : w.suite.setupSuite = true) :
    (CleanupSuite.PatchEnvironment w name value).suite
        = w.suite.AddSuiteCleanup (CleanupFunc.restore (Restorer.env name (w.env name))) ∧
      (CleanupSuite.PatchEnvironment w name value).env = setenv w.env name value := by
  simp [CleanupSuite.PatchEnvironment, Testing.PatchEnvironment, hflag]

/-- In the test phase a run of patches appends restore closures to the test
stack, and calling them from the last one to the first one, in a world that
has the patched environment, gives back the environment from before the run. -/
theorem patchEnvironments_undo (ps : List (String × String)) :
    ∀ w : World, w.suite.setupSuite = false →
      ∃ rs : List CleanupFunc,
        (patchEnvironments w ps).suite.testStack = w.suite.testStack ++ rs ∧
        ∀ (h : Host) (e : Exec), e.world.env = (patchEnvironments w ps).env →
          (invokeAll h rs.reverse e).world.env = w.env := by
  induction ps with
  | nil =>
    intro w _
    exact ⟨[], by simp [patchEnvironments], fun h e he => by simpa [invokeAll] using he⟩
  | cons p ps ih =>
    intro w hflag
    obtain ⟨hsuite, henv⟩ := patchEnvironment_test_phase w p.1 p.2 hflag
    have hflag1 : (CleanupSuite.PatchEnvironment w p.1 p.2).suite.setupSuite = false := by
      rw [hsuite]; exact hflag
    obtain ⟨rs, hstack, hundo⟩ := ih (CleanupSuite.PatchEnvironment w p.1 p.2) hflag1
    refine ⟨CleanupFunc.restore (Restorer.env p.1 (w.env p.1)) :: rs, ?_, ?_⟩
    · have : patchEnvironments w (p :: ps)
          = patchEnvironments (CleanupSuite.PatchEnvironment w p.1 p.2) ps := rfl
      rw [this, hstack, hsuite]
      simp [CleanupSuite.AddCleanup]
    · intro h e he
      have hstep : patchEnvironments w (p :: ps)
          = patchEnvironments (CleanupSuite.PatchEnvironment w p.1 p.2) ps := rfl
      rw [hstep] at he
      have hmid := hundo h e he
      rw [List.reverse_cons, invokeAll_append]
      show ((Restorer.env p.1 (w.env p.1)).run (invokeAll h rs.reverse e).world).env = w.env
      exact restore_env_after_setenv w.env p.1 p.2 _ (hmid.trans henv)

/-! ## The claims -/

/-- C1: whatever the cleanup functions do, for every list `fs` of cleanup
functions registered with `AddCleanup` in that order after `SetUpTest`, and
whatever the rest of the world is, `TearDownTest` calls exactly the functions
of `fs`, in the reverse order: the calls it adds to the log are `fs.reverse`,
so there are as many as registrations and each function is called as many times
as it was registered. -/
theorem tearDownTest_calls_registered_in_reverse (h : Host) (w : World) (fs : List CleanupFunc)
    (log : List CleanupFunc) :
    (CleanupSuite.TearDownTest h (afterAddCleanups w fs log)).calls = log ++ fs.reverse ∧
      ((CleanupSuite.TearDownTest h (afterAddCleanups w fs log)).calls.drop log.length).length
        = fs.length ∧
      ∀ f, ((CleanupSuite.TearDownTest h (afterAddCleanups w fs log)).calls.drop log.length).count f
        = fs.count f := by
  have hcalls : (CleanupSuite.TearDownTest h (afterAddCleanups w fs log)).calls
      = log ++ fs.reverse := by
    simp [tearDownTest_calls, afterAddCleanups, addCleanups_testStack, CleanupSuite.SetUpTest]
  refine ⟨hcalls, ?_, ?_⟩
  · rw [hcalls]; simp
  · intro f; rw [hcalls]; simp

/-- The scenario of C1: registering A, B, C makes the teardown run C, B, A. -/
theorem tearDownTest_scenario_abc (h : Host) (w : World) :
    (CleanupSuite.TearDownTest h
      (afterAddCleanups w [CleanupFunc.user 0, CleanupFunc.user 1, CleanupFunc.user 2] [])).calls
      = [CleanupFunc.user 2, CleanupFunc.user 1, CleanupFunc.user 0] := by
  simp [tearDownTest_calls, afterAddCleanups, addCleanups_testStack, CleanupSuite.SetUpTest]

/-- C2, as stated, fails: with one function on each stack and cleanup functions
that do nothing, the test stack after `TearDownTest` and the suite stack after
`TearDownSuite` still hold their function. -/
theorem tearDown_does_not_empty_stacks :
    (CleanupSuite.TearDownTest idleHost twoStacks).world.suite.testStack = [CleanupFunc.user 0] ∧
      (CleanupSuite.TearDownTest idleHost twoStacks).world.suite.testStack ≠ [] ∧
      (CleanupSuite.TearDownSuite idleHost twoStacks).world.suite.suiteStack
        = [CleanupFunc.user 1] ∧
      (CleanupSuite.TearDownSuite idleHost twoStacks).world.suite.suiteStack ≠ [] := by
  decide

/-- C2, amended: when the cleanup functions leave the suite alone,
`TearDownTest` leaves the whole suite, the test stack included, as it was, and
`TearDownSuite` leaves both stacks as they were and only clears the phase flag;
the test stack is emptied by `SetUpTest` and the suite stack by
`SetUpSuite`. -/
theorem tearDown_keeps_stacks (h : Host) (e : Exec)
    (hframe : ∀ id w, (h.run id w).suite = w.suite) :
    (CleanupSuite.TearDownTest h e).world.suite = e.world.suite ∧
      (CleanupSuite.TearDownSuite h e).world.suite = { e.world.suite with setupSuite := false } ∧
      (Exec.onSuite CleanupSuite.SetUpTest (CleanupSuite.TearDownTest h e)).world.suite.testStack
        = [] ∧
      (Exec.onSuite CleanupSuite.SetUpSuite (CleanupSuite.TearDownSuite h e)).world.suite.suiteStack
        = [] := by
  refine ⟨?_, ?_, rfl, rfl⟩
  · rw [CleanupSuite.TearDownTest, callStack_eq, invokeAll_suite h hframe]
  · simp only [CleanupSuite.TearDownSuite]
    rw [callStack_eq, invokeAll_suite h hframe]

/-- The amended C2 at a concrete state: one function on each stack and cleanup
functions that do nothing. -/
theorem tearDown_keeps_stacks_witness :
    (∀ id w, (idleHost.run id w).suite = w.suite) ∧
      (CleanupSuite.TearDownTest idleHost twoStacks).world.suite = twoStacks.world.suite ∧
      (CleanupSuite.TearDownSuite idleHost twoStacks).world.suite
        = { twoStacks.world.suite with setupSuite := false } :=
  ⟨fun _ _ => rfl,
    (tearDown_keeps_stacks idleHost twoStacks (fun _ _ => rfl)).1,
    (tearDown_keeps_stacks idleHost twoStacks (fun _ _ => rfl)).2.1⟩

/-- C3: for every environment and every list of `s.PatchEnvironment` calls made
after `SetUpTest`, names repeated or not, and whatever the user cleanup
functions would do, `TearDownTest` leaves the environment equal to the one
before the first patch, unset variables being unset again. -/
theorem patchEnvironments_tearDownTest_restores_env (h : Host) (w : World)
    (ps : List (String × String)) (log : List CleanupFunc) :
    (CleanupSuite.TearDownTest h
      { world := patchEnvironments { w with suite := w.suite.SetUpTest } ps,
        calls := log }).world.env = w.env := by
  obtain ⟨rs, hstack, hundo⟩ :=
    patchEnvironments_undo ps { w with suite := w.suite.SetUpTest } rfl
  have hrs : (patchEnvironments { w with suite := w.suite.SetUpTest } ps).suite.testStack = rs := by
    rw [hstack]; rfl
  rw [CleanupSuite.TearDownTest, callStack_eq]
  dsimp only
  rw [hrs]
  exact hundo h
    { world := patchEnvironments { w with suite := w.suite.SetUpTest } ps, calls := log } rfl

/-- The scenario of C3: FOO unset, patch FOO=bar, teardown leaves FOO unset. -/
theorem patchEnvironment_scenario_foo :
    (CleanupSuite.PatchEnvironment (blankWorld (emptySuite false)) "FOO" "bar").env "FOO"
        = some "bar" ∧
      (CleanupSuite.TearDownTest idleHost
        (start (CleanupSuite.PatchEnvironment (blankWorld (emptySuite false)) "FOO" "bar"))
        ).world.env "FOO" = none := by
  decide

/-- C4, as stated, fails: with the phase flag set, `AddCleanup` does not append
to the suite stack; the function goes on the test stack. -/
theorem addCleanup_ignores_phase_flag :
    (emptySuite true).setupSuite = true ∧
      ((emptySuite true).AddCleanup (CleanupFunc.user 0)).suiteStack
        ≠ (emptySuite true).suiteStack ++ [CleanupFunc.user 0] ∧
      ((emptySuite true).AddCleanup (CleanupFunc.user 0)).suiteStack = [] ∧
      ((emptySuite true).AddCleanup (CleanupFunc.user 0)).testStack = [CleanupFunc.user 0] := by
  decide

/-- C4, amended: `AddCleanup` appends the function to the test stack and leaves
the suite stack as it is, whether the phase flag is set or cleared. -/
theorem addCleanup_appends_to_test_stack (s : CleanupSuite) (flag : Bool) (f : CleanupFunc) :
    (CleanupSuite.AddCleanup { s with setupSuite := flag } f).testStack = s.testStack ++ [f] ∧
      (CleanupSuite.AddCleanup { s with setupSuite := flag } f).suiteStack = s.suiteStack ∧
      (CleanupSuite.AddCleanup { s with setupSuite := flag } f).setupSuite = flag := by
  exact ⟨rfl, rfl, rfl⟩

/-- C5: `AddCleanup` puts the function last on the test stack, in front of it
the test stack as it was, and leaves the suite stack and the phase flag
unchanged; `AddSuiteCleanup` puts it last on the suite stack, in front of it the
suite stack as it was, and leaves the test stack and the phase flag unchanged.
Neither looks at the phase flag. -/
theorem addCleanup_addSuiteCleanup_frame (s : CleanupSuite) (f : CleanupFunc) :
    ((s.AddCleanup f).testStack.getLast? = some f ∧
        (s.AddCleanup f).testStack.dropLast = s.testStack ∧
        (s.AddCleanup f).testStack.length = s.testStack.length + 1 ∧
        (s.AddCleanup f).suiteStack = s.suiteStack ∧
        (s.AddCleanup f).setupSuite = s.setupSuite) ∧
      ((s.AddSuiteCleanup f).suiteStack.getLast? = some f ∧
        (s.AddSuiteCleanup f).suiteStack.dropLast = s.suiteStack ∧
        (s.AddSuiteCleanup f).suiteStack.length = s.suiteStack.length + 1 ∧
        (s.AddSuiteCleanup f).testStack = s.testStack ∧
        (s.AddSuiteCleanup f).setupSuite = s.setupSuite) := by
  simp [CleanupSuite.AddCleanup, CleanupSuite.AddSuiteCleanup]

/-- C6: each of `PatchEnvironment`, `PatchEnvPathPrepend` and `PatchValue` (when
the package-level `PatchValue` does not fail) registers exactly one cleanup
function, the closure that calls the restorer: on the suite stack, the test
stack unchanged, if the phase flag is set, and otherwise on the test stack, the
suite stack unchanged; the phase flag is unchanged. -/
theorem patch_helpers_register_by_phase (assignable : GoType → GoType → Bool) (w w1 : World)
    (name value dir : String) (dest : Nat) (v : Value)
    (hok : CleanupSuite.PatchValue assignable w dest v = some w1) :
    registersByPhase w (CleanupSuite.PatchEnvironment w name value)
        (CleanupFunc.restore (Restorer.env name (w.env name))) ∧
      registersByPhase w (CleanupSuite.PatchEnvPathPrepend w dir)
        (CleanupFunc.restore (Restorer.env "PATH" (some (getenv w.env "PATH")))) ∧
      registersByPhase w w1 (CleanupFunc.restore (Restorer.value dest (w.vars dest).val)) := by
  refine ⟨?_, ?_, ?_⟩
  · cases hflag : w.suite.setupSuite <;>
      simp [registersByPhase, CleanupSuite.PatchEnvironment, Testing.PatchEnvironment, hflag,
        CleanupSuite.AddCleanup, CleanupSuite.AddSuiteCleanup]
  · cases hflag : w.suite.setupSuite <;>
      simp [registersByPhase, CleanupSuite.PatchEnvPathPrepend, Testing.PatchEnvPathPrepend, hflag,
        CleanupSuite.AddCleanup, CleanupSuite.AddSuiteCleanup]
  · unfold CleanupSuite.PatchValue Testing.PatchValue at hok
    by_cases hassign : assignable v.typ (w.vars dest).typ = true
    · cases hflag : w.suite.setupSuite <;>
        simp only [hassign, hflag, if_true, Bool.false_eq_true, if_false, Option.some.injEq]
          at hok <;>
        subst hok <;>
        simp [registersByPhase, hflag, CleanupSuite.AddCleanup, CleanupSuite.AddSuiteCleanup]
    · simp [hassign] at hok

/-- C6 at a concrete state: in the suite phase, patching variable 3 with a value
of its type puts the restore closure on the suite stack. -/
theorem patch_helpers_register_by_phase_witness :
    CleanupSuite.PatchValue sameType suitePhaseWorld 3 { typ := 0, data := 5 }
        = some suitePhasePatched ∧
      registersByPhase suitePhaseWorld
        (CleanupSuite.PatchEnvironment suitePhaseWorld "FOO" "bar")
        (CleanupFunc.restore (Restorer.env "FOO" (suitePhaseWorld.env "FOO"))) ∧
      registersByPhase suitePhaseWorld
        (CleanupSuite.PatchEnvPathPrepend suitePhaseWorld "/opt/bin")
        (CleanupFunc.restore (Restorer.env "PATH" (some (getenv suitePhaseWorld.env "PATH")))) ∧
      registersByPhase suitePhaseWorld suitePhasePatched
        (CleanupFunc.restore (Restorer.value 3 (suitePhaseWorld.vars 3).val)) :=
  ⟨rfl,
    patch_helpers_register_by_phase sameType suitePhaseWorld suitePhasePatched "FOO" "bar"
      "/opt/bin" 3 { typ := 0, data := 5 } rfl⟩

/-- C7, the code at the failing input: in the suite phase (the flag set by
`SetUpSuite`) `HookCommandOutput` puts its restore closure on the test stack and
leaves the suite stack empty, where the three patch helpers would have put it
on the suite stack.  The next `SetUpTest` drops the closure: neither
`TearDownTest` nor `TearDownSuite` calls anything and the hook is still the
stub at the end of the suite. -/
theorem hookCommandOutput_ignores_phase_flag :
    afterSetUpSuite.suite.setupSuite = true ∧
      hookedInSetUpSuite.suite.testStack
        = [CleanupFunc.restore (Restorer.hook 0 (OutputFunc.real 0))] ∧
      hookedInSetUpSuite.suite.suiteStack = [] ∧
      (CleanupSuite.PatchEnvironment afterSetUpSuite "FOO" "bar").suite.testStack = [] ∧
      (CleanupSuite.PatchEnvironment afterSetUpSuite "FOO" "bar").suite.suiteStack
        = [CleanupFunc.restore (Restorer.env "FOO" none)] ∧
      hookedSuiteRun.calls = [] ∧
      hookedSuiteRun.world.hooks 0 = OutputFunc.stub [1, 2] none := by
  decide

/-- C8, as stated, fails: with the phase flag set and FOO unset, after
`s.PatchEnvironment("FOO", "bar")` the next `TearDownTest` calls nothing and FOO
is still bar when it returns. -/
theorem patchEnvironment_suite_phase_not_restored_by_tearDownTest :
    (blankWorld (emptySuite true)).env "FOO" = none ∧
      (CleanupSuite.TearDownTest idleHost
        (start (CleanupSuite.PatchEnvironment (blankWorld (emptySuite true)) "FOO" "bar"))).calls
        = [] ∧
      (CleanupSuite.TearDownTest idleHost
        (start (CleanupSuite.PatchEnvironment (blankWorld (emptySuite true)) "FOO" "bar"))
        ).world.env "FOO" = some "bar" := by
  decide

/-- C8, amended: for every state with the phase flag cleared, after
`s.PatchEnvironment(name, value)` the next `TearDownTest` calls the restore
closure, before every function that was on the test stack already; and when
none of those changes the variable `name`, the variable has its original value
when `TearDownTest` returns. -/
theorem patchEnvironment_test_phase_restored_by_tearDownTest (h : Host) (w : World)
    (name value : String) (log : List CleanupFunc)
    (hflag : w.suite.setupSuite = false)
    (hkeep : ∀ f ∈ w.suite.testStack, ∀ w1 : World, (f.call h w1).env name = w1.env name) :
    (CleanupSuite.TearDownTest h
        { world := CleanupSuite.PatchEnvironment w name value, calls := log }).calls
        = log ++
          CleanupFunc.restore (Restorer.env name (w.env name)) :: w.suite.testStack.reverse ∧
      (CleanupSuite.TearDownTest h
        { world := CleanupSuite.PatchEnvironment w name value, calls := log }).world.env name
        = w.env name := by
  obtain ⟨hsuite, henv⟩ := patchEnvironment_test_phase w name value hflag
  have hstack : (CleanupSuite.PatchEnvironment w name value).suite.testStack
      = w.suite.testStack ++ [CleanupFunc.restore (Restorer.env name (w.env name))] := by
    rw [hsuite]; rfl
  refine ⟨?_, ?_⟩
  · rw [tearDownTest_calls]
    dsimp only
    rw [hstack]
    simp
  · rw [CleanupSuite.TearDownTest, callStack_eq]
    dsimp only
    rw [hstack, List.reverse_append, List.reverse_singleton, List.singleton_append,
      invokeAll_cons]
    rw [invokeAll_env_of_keep h name _ (fun f hf => hkeep f (List.mem_reverse.mp hf))]
    have := restore_env_after_setenv w.env name value
      (CleanupSuite.PatchEnvironment w name value) henv
    exact congrFun this name

/-- The amended C8 at a concrete state: FOO unset, an older user function on
the test stack, the flag cleared. -/
theorem patchEnvironment_test_phase_restored_by_tearDownTest_witness :
    testPhaseWorld.suite.setupSuite = false ∧
      (∀ f ∈ testPhaseWorld.suite.testStack, ∀ w1 : World,
        (f.call idleHost w1).env "FOO" = w1.env "FOO") ∧
      (CleanupSuite.TearDownTest idleHost
        { world := CleanupSuite.PatchEnvironment testPhaseWorld "FOO" "bar", calls := [] }).calls
        = [] ++ CleanupFunc.restore (Restorer.env "FOO" (testPhaseWorld.env "FOO")) ::
            testPhaseWorld.suite.testStack.reverse ∧
      (CleanupSuite.TearDownTest idleHost
        { world := CleanupSuite.PatchEnvironment testPhaseWorld "FOO" "bar", calls := [] }
        ).world.env "FOO" = testPhaseWorld.env "FOO" :=
  have hkeep : ∀ f ∈ testPhaseWorld.suite.testStack, ∀ w1 : World,
      (f.call idleHost w1).env "FOO" = w1.env "FOO" := fun f hf w1 => by
    have hf4 : f = CleanupFunc.user 4 := by simpa [testPhaseWorld, blankWorld] using hf
    subst hf4; rfl
  ⟨rfl, hkeep,
    patchEnvironment_test_phase_restored_by_tearDownTest idleHost testPhaseWorld "FOO" "bar" []
      rfl hkeep⟩

/-- C9: whatever the cleanup functions do, `TearDownSuite` calls the functions
of the suite stack, from the last one registered to the first one, each as many
times as it is on the stack; it calls no function that is not on the suite
stack, so none that is on the test stack only; and the phase flag is cleared
when it returns. -/
theorem tearDownSuite_calls_suite_stack_in_reverse (h : Host) (e : Exec) :
    (CleanupSuite.TearDownSuite h e).calls = e.calls ++ e.world.suite.suiteStack.reverse ∧
      (∀ f, ((CleanupSuite.TearDownSuite h e).calls.drop e.calls.length).count f
        = e.world.suite.suiteStack.count f) ∧
      (∀ f, f ∈ e.world.suite.testStack → f ∉ e.world.suite.suiteStack →
        f ∉ (CleanupSuite.TearDownSuite h e).calls.drop e.calls.length) ∧
      (CleanupSuite.TearDownSuite h e).world.suite.setupSuite = false := by
  have hcalls := tearDownSuite_calls h e
  refine ⟨hcalls, ?_, ?_, rfl⟩
  · intro f; rw [hcalls]; simp
  · intro f _ hnot; rw [hcalls]; simpa using hnot

/-- C10: `SetUpSuite` leaves the suite stack empty and the phase flag set, keeps
the test stack as it was, and calls no cleanup function: the log of calls and
the rest of the world are unchanged. -/
theorem setUpSuite_resets_suite_stack (e : Exec) :
    (Exec.onSuite CleanupSuite.SetUpSuite e).world.suite.suiteStack = [] ∧
      (Exec.onSuite CleanupSuite.SetUpSuite e).world.suite.setupSuite = true ∧
      (Exec.onSuite CleanupSuite.SetUpSuite e).world.suite.testStack
        = e.world.suite.testStack ∧
      (Exec.onSuite CleanupSuite.SetUpSuite e).calls = e.calls ∧
      (Exec.onSuite CleanupSuite.SetUpSuite e).world.env = e.world.env ∧
      (Exec.onSuite CleanupSuite.SetUpSuite e).world.vars = e.world.vars ∧
      (Exec.onSuite CleanupSuite.SetUpSuite e).world.hooks = e.world.hooks := by
  exact ⟨rfl, rfl, rfl, rfl, rfl, rfl, rfl⟩

/-! ## Registering calls, phase by phase -/

theorem Registration.apply_test_phase (assignable : GoType → GoType → Bool) (w w1 : World)
    (r : Registration) (hflag : w.suite.setupSuite = false)
    (hap : r.apply assignable w = some w1) :
    w1.suite = w.suite.AddCleanup (r.registered w) := by
  cases r with
  | addCleanup f =>
    simp only [Registration.apply, Option.some.injEq] at hap
    subst hap; rfl
  | patchEnvironment name value =>
    simp only [Registration.apply, Option.some.injEq] at hap
    subst hap
    simp [CleanupSuite.PatchEnvironment, Testing.PatchEnvironment, hflag,
      Registration.registered]
  | patchEnvPathPrepend dir =>
    simp only [Registration.apply, Option.some.injEq] at hap
    subst hap
    simp [CleanupSuite.PatchEnvPathPrepend, Testing.PatchEnvPathPrepend, hflag,
      Registration.registered]
  | patchValue dest value =>
    simp only [Registration.apply, CleanupSuite.PatchValue, Testing.PatchValue] at hap
    by_cases hassign : assignable value.typ (w.vars dest).typ = true
    · simp only [hassign, if_true, hflag, Bool.false_eq_true, if_false, Option.some.injEq] at hap
      subst hap; rfl
    · simp [hassign] at hap
  | hookCommandOutput outputFunc output err =>
    simp only [Registration.apply, Option.some.injEq] at hap
    subst hap; rfl

theorem Registration.apply_suite_phase (assignable : GoType → GoType → Bool) (w w1 : World)
    (r : Registration) (hflag : w.suite.setupSuite = true) (hpatch : r.isPatch = true)
    (hap : r.apply assignable w = some w1) :
    w1.suite = w.suite.AddSuiteCleanup (r.registered w) := by
  cases r with
  | addCleanup f => simp [Registration.isPatch] at hpatch
  | patchEnvironment name value =>
    simp only [Registration.apply, Option.some.injEq] at hap
    subst hap
    simp [CleanupSuite.PatchEnvironment, Testing.PatchEnvironment, hflag,
      Registration.registered]
  | patchEnvPathPrepend dir =>
    simp only [Registration.apply, Option.some.injEq] at hap
    subst hap
    simp [CleanupSuite.PatchEnvPathPrepend, Testing.PatchEnvPathPrepend, hflag,
      Registration.registered]
  | patchValue dest value =>
    simp only [Registration.apply, CleanupSuite.PatchValue, Testing.PatchValue] at hap
    by_cases hassign : assignable value.typ (w.vars dest).typ = true
    · simp only [hassign, if_true, hflag, Option.some.injEq] at hap
      subst hap; rfl
    · simp [hassign] at hap
  | hookCommandOutput outputFunc output err => simp [Registration.isPatch] at hpatch

theorem register_cons_some (assignable : GoType → GoType → Bool) (r : Registration)
    (rs : List Registration) (w w2 : World) (fs : List CleanupFunc)
    (hreg : register assignable (r :: rs) w = some (w2, fs)) :
    ∃ w1 gs, r.apply assignable w = some w1 ∧ register assignable rs w1 = some (w2, gs) ∧
      fs = r.registered w :: gs := by
  rw [register] at hreg
  cases hap : r.apply assignable w with
  | none => simp [hap] at hreg
  | some w1 =>
    cases hrest : register assignable rs w1 with
    | none => simp [hap, hrest] at hreg
    | some p =>
      simp only [hap, hrest, Option.some.injEq, Prod.mk.injEq] at hreg
      exact ⟨w1, p.2, rfl, by rw [← hreg.1, hrest], hreg.2.symm⟩

/-- In the test phase the functions handed over by a run of registering calls
go on the test stack, in order; the suite stack and the flag stay. -/
theorem register_test_phase (assignable : GoType → GoType → Bool) (rs : List Registration) :
    ∀ (w w2 : World) (fs : List CleanupFunc), w.suite.setupSuite = false →
      register assignable rs w = some (w2, fs) →
      w2.suite = { w.suite with testStack := w.suite.testStack ++ fs } ∧
        fs.length = rs.length := by
  induction rs with
  | nil =>
    intro w w2 fs _ hreg
    simp only [register, Option.some.injEq, Prod.mk.injEq] at hreg
    obtain ⟨hw, hfs⟩ := hreg
    subst hw; subst hfs
    simp
  | cons r rs ih =>
    intro w w2 fs hflag hreg
    obtain ⟨w1, gs, hap, hrest, hfs⟩ := register_cons_some assignable r rs w w2 fs hreg
    have hstep := Registration.apply_test_phase assignable w w1 r hflag hap
    have hflag1 : w1.suite.setupSuite = false := by rw [hstep]; exact hflag
    obtain ⟨hsuite, hlen⟩ := ih w1 w2 gs hflag1 hrest
    subst hfs
    refine ⟨?_, by simp [hlen]⟩
    rw [hsuite, hstep]
    simp [CleanupSuite.AddCleanup]

/-- In the suite phase the functions handed over by a run of calls of the three
patch helpers go on the suite stack, in order; the test stack and the flag
stay. -/
theorem register_suite_phase (assignable : GoType → GoType → Bool) (rs : List Registration) :
    ∀ (w w2 : World) (fs : List CleanupFunc), w.suite.setupSuite = true →
      (∀ r ∈ rs, r.isPatch = true) →
      register assignable rs w = some (w2, fs) →
      w2.suite = { w.suite with suiteStack := w.suite.suiteStack ++ fs } ∧
        fs.length = rs.length := by
  induction rs with
  | nil =>
    intro w w2 fs _ _ hreg
    simp only [register, Option.some.injEq, Prod.mk.injEq] at hreg
    obtain ⟨hw, hfs⟩ := hreg
    subst hw; subst hfs
    simp
  | cons r rs ih =>
    intro w w2 fs hflag hpatch hreg
    obtain ⟨w1, gs, hap, hrest, hfs⟩ := register_cons_some assignable r rs w w2 fs hreg
    have hstep := Registration.apply_suite_phase assignable w w1 r hflag
      (hpatch r (List.mem_cons_self _ _)) hap
    have hflag1 : w1.suite.setupSuite = true := by rw [hstep]; exact hflag
    obtain ⟨hsuite, hlen⟩ := ih w1 w2 gs hflag1
      (fun r1 h1 => hpatch r1 (List.mem_cons_of_mem _ h1)) hrest
    subst hfs
    refine ⟨?_, by simp [hlen]⟩
    rw [hsuite, hstep]
    simp [CleanupSuite.AddSuiteCleanup]

theorem tearDownTest_suite (h : Host) (hframe : ∀ id w, (h.run id w).suite = w.suite)
    (e : Exec) : (CleanupSuite.TearDownTest h e).world.suite = e.world.suite := by
  rw [CleanupSuite.TearDownTest, callStack_eq, invokeAll_suite h hframe]

/-! ## One test cycle, the test cycles, the suite -/

/-- A test cycle that completes: its teardown calls the functions registered in
the test, last to first, and nothing else; the suite stack is as before. -/
theorem runTest_spec (h : Host) (hframe : ∀ id w, (h.run id w).suite = w.suite)
    (assignable : GoType → GoType → Bool) (regs : List Registration) (e e1 : Exec) (ph : Phase)
    (hrun : runTest h assignable regs e = some (e1, ph)) :
    ph.called = ph.registered.reverse ∧ ph.registered.length = regs.length ∧
      e1.calls = e.calls ++ ph.called ∧
      e1.world.suite.suiteStack = e.world.suite.suiteStack := by
  unfold runTest at hrun
  cases hreg : register assignable regs (Exec.onSuite CleanupSuite.SetUpTest e).world with
  | none => simp [hreg] at hrun
  | some p =>
    obtain ⟨w2, fs⟩ := p
    simp only [hreg, Option.some.injEq, Prod.mk.injEq] at hrun
    obtain ⟨he1, hph⟩ := hrun
    obtain ⟨hsuite, hlen⟩ := register_test_phase assignable regs _ w2 fs rfl hreg
    have hstack : w2.suite.testStack = fs := by rw [hsuite]; rfl
    have hcalls : (CleanupSuite.TearDownTest h { world := w2, calls := e.calls }).calls
        = e.calls ++ fs.reverse := by
      rw [tearDownTest_calls]; dsimp only; rw [hstack]
    have hcalled : ph.called = fs.reverse := by
      rw [← hph]; dsimp only; rw [hcalls, List.drop_left]
    have hregd : ph.registered = fs := by rw [← hph]
    refine ⟨by rw [hcalled, hregd], by rw [hregd, hlen], ?_, ?_⟩
    · rw [← he1, hcalls, hcalled]
    · rw [← he1, tearDownTest_suite h hframe]
      dsimp only
      rw [hsuite]; rfl

/-- The test cycles of a suite, when they complete: each teardown calls the
functions registered in its own test, last to first; the log grows by these
calls and by nothing else; the suite stack is as before. -/
theorem runTests_spec (h : Host) (hframe : ∀ id w, (h.run id w).suite = w.suite)
    (assignable : GoType → GoType → Bool) (tests : List (List Registration)) :
    ∀ (e e1 : Exec) (phs : List Phase), runTests h assignable tests e = some (e1, phs) →
      (∀ ph ∈ phs, ph.called = ph.registered.reverse) ∧
        phs.map (fun ph => ph.registered.length) = tests.map List.length ∧
        e1.calls = e.calls ++ (phs.map Phase.called).flatten ∧
        e1.world.suite.suiteStack = e.world.suite.suiteStack := by
  induction tests with
  | nil =>
    intro e e1 phs hrun
    simp only [runTests, Option.some.injEq, Prod.mk.injEq] at hrun
    obtain ⟨he, hphs⟩ := hrun
    subst he; subst hphs
    simp
  | cons t ts ih =>
    intro e e1 phs hrun
    rw [runTests] at hrun
    cases htest : runTest h assignable t e with
    | none => simp [htest] at hrun
    | some p =>
      obtain ⟨e2, ph⟩ := p
      cases hrest : runTests h assignable ts e2 with
      | none => simp [htest, hrest] at hrun
      | some q =>
        obtain ⟨e3, phs1⟩ := q
        simp only [htest, hrest, Option.some.injEq, Prod.mk.injEq] at hrun
        obtain ⟨he, hphs⟩ := hrun
        subst he; subst hphs
        obtain ⟨hcalled, hlen, hlog, hstack⟩ := runTest_spec h hframe assignable t e e2 ph htest
        obtain ⟨hall, hlens, hlog1, hstack1⟩ := ih e2 e3 phs1 hrest
        refine ⟨?_, ?_, ?_, ?_⟩
        · intro ph1 hmem
          rcases List.mem_cons.mp hmem with heq | hin
          · rw [heq]; exact hcalled
          · exact hall ph1 hin
        · simp [hlen, hlens]
        · rw [hlog1, hlog]; simp
        · rw [hstack1, hstack]

/-- A suite that completes, with cleanup functions that leave the registry
alone and a suite setup that registers through the three patch helpers. -/
theorem runSuite_spec (h : Host) (hframe : ∀ id w, (h.run id w).suite = w.suite)
    (assignable : GoType → GoType → Bool) (suiteRegs : List Registration)
    (hpatch : ∀ r ∈ suiteRegs, r.isPatch = true)
    (tests : List (List Registration)) (e : Exec) (run : SuiteRun)
    (hrun : runSuite h assignable suiteRegs tests e = some run) :
    run.suitePhase.called = run.suitePhase.registered.reverse ∧
      (∀ ph ∈ run.tests, ph.called = ph.registered.reverse) ∧
      run.suitePhase.registered.length = suiteRegs.length ∧
      run.tests.map (fun ph => ph.registered.length) = tests.map List.length ∧
      run.final.calls
        = e.calls ++ (run.tests.map Phase.called).flatten ++ run.suitePhase.called := by
  unfold runSuite at hrun
  cases hreg : register assignable suiteRegs (Exec.onSuite CleanupSuite.SetUpSuite e).world with
  | none => simp [hreg] at hrun
  | some p =>
    obtain ⟨w2, fs⟩ := p
    cases htests : runTests h assignable tests { world := w2, calls := e.calls } with
    | none => simp [hreg, htests] at hrun
    | some q =>
      obtain ⟨e3, phs⟩ := q
      simp only [hreg, htests, Option.some.injEq] at hrun
      subst hrun
      obtain ⟨hsuite, hlen⟩ := register_suite_phase assignable suiteRegs _ w2 fs rfl hpatch hreg
      have hstack : w2.suite.suiteStack = fs := by rw [hsuite]; rfl
      obtain ⟨hall, hlens, hlog, hstack3⟩ :=
        runTests_spec h hframe assignable tests _ e3 phs htests
      have hstack3b : e3.world.suite.suiteStack = fs := by rw [hstack3]; exact hstack
      have hcalls : (CleanupSuite.TearDownSuite h e3).calls = e3.calls ++ fs.reverse := by
        rw [tearDownSuite_calls, hstack3b]
      refine ⟨?_, hall, hlen, hlens, ?_⟩
      · dsimp only; rw [hcalls, List.drop_left]
      · dsimp only; rw [hcalls, List.drop_left, hlog]

/-! ## The claims on the lifecycle -/

/-- C11: `SetUpTest` leaves the phase flag cleared and the test stack empty,
keeps the suite stack as it was, and calls no cleanup function: the log of
calls and the rest of the world are unchanged. -/
theorem setUpTest_resets_test_stack (e : Exec) :
    (Exec.onSuite CleanupSuite.SetUpTest e).world.suite.setupSuite = false ∧
      (Exec.onSuite CleanupSuite.SetUpTest e).world.suite.testStack = [] ∧
      (Exec.onSuite CleanupSuite.SetUpTest e).world.suite.suiteStack
        = e.world.suite.suiteStack ∧
      (Exec.onSuite CleanupSuite.SetUpTest e).calls = e.calls ∧
      (Exec.onSuite CleanupSuite.SetUpTest e).world.env = e.world.env ∧
      (Exec.onSuite CleanupSuite.SetUpTest e).world.vars = e.world.vars ∧
      (Exec.onSuite CleanupSuite.SetUpTest e).world.hooks = e.world.hooks := by
  exact ⟨rfl, rfl, rfl, rfl, rfl, rfl, rfl⟩

/-- C12: when the type of the value is not assignable to the type of the
destination, the package-level `PatchValue` fails, so `s.PatchValue` fails in
the call itself, at its first line and before the registration; no world with
a new registration comes out of the call; both stacks are as they were, and
the teardowns that follow call exactly the functions that were on the stacks
before the call, no restore for it among them. -/
theorem patchValue_not_assignable_registers_nothing (h : Host)
    (assignable : GoType → GoType → Bool) (w : World) (dest : Nat) (value : Value)
    (log : List CleanupFunc) (hbad : assignable value.typ (w.vars dest).typ = false) :
    Testing.PatchValue assignable w dest value = none ∧
      CleanupSuite.PatchValue assignable w dest value = none ∧
      (∀ w1, CleanupSuite.PatchValue assignable w dest value ≠ some w1) ∧
      (worldAfterPatchValue assignable w dest value).suite.testStack = w.suite.testStack ∧
      (worldAfterPatchValue assignable w dest value).suite.suiteStack = w.suite.suiteStack ∧
      (CleanupSuite.TearDownTest h
        { world := worldAfterPatchValue assignable w dest value, calls := log }).calls
        = log ++ w.suite.testStack.reverse ∧
      (CleanupSuite.TearDownSuite h
        { world := worldAfterPatchValue assignable w dest value, calls := log }).calls
        = log ++ w.suite.suiteStack.reverse := by
  have hpkg : Testing.PatchValue assignable w dest value = none := by
    simp [Testing.PatchValue, hbad]
  have hmeth : CleanupSuite.PatchValue assignable w dest value = none := by
    simp [CleanupSuite.PatchValue, hpkg]
  have hafter : worldAfterPatchValue assignable w dest value = w := by
    simp [worldAfterPatchValue, hmeth]
  refine ⟨hpkg, hmeth, ?_, ?_, ?_, ?_, ?_⟩
  · intro w1 hsome; rw [hmeth] at hsome; exact Option.noConfusion hsome
  · rw [hafter]
  · rw [hafter]
  · rw [tearDownTest_calls, hafter]
  · rw [tearDownSuite_calls, hafter]

/-- C12 at a concrete state: a value of type 1 for variable 3, of type 0, with
user function 0 on the test stack and user function 1 on the suite stack. -/
theorem patchValue_not_assignable_registers_nothing_witness :
    sameType wrongTypeValue.typ (twoStacks.world.vars 3).typ = false ∧
      CleanupSuite.PatchValue sameType twoStacks.world 3 wrongTypeValue = none ∧
      (CleanupSuite.TearDownTest idleHost
        { world := worldAfterPatchValue sameType twoStacks.world 3 wrongTypeValue,
          calls := [] }).calls = [] ++ twoStacks.world.suite.testStack.reverse ∧
      (CleanupSuite.TearDownSuite idleHost
        { world := worldAfterPatchValue sameType twoStacks.world 3 wrongTypeValue,
          calls := [] }).calls = [] ++ twoStacks.world.suite.suiteStack.reverse :=
  ⟨rfl,
    (patchValue_not_assignable_registers_nothing idleHost sameType twoStacks.world 3
      wrongTypeValue [] rfl).2.1,
    (patchValue_not_assignable_registers_nothing idleHost sameType twoStacks.world 3
      wrongTypeValue [] rfl).2.2.2.2.2.1,
    (patchValue_not_assignable_registers_nothing idleHost sameType twoStacks.world 3
      wrongTypeValue [] rfl).2.2.2.2.2.2⟩

/-- C13, the code at the failing input: `SetUpSuite`; the suite setup patches a
command hook with `s.HookCommandOutput(&hook0, [1 2], nil)`; one test
(`SetUpTest`; `AddCleanup` of user function 4; `TearDownTest`);
`TearDownSuite`.  The suite setup registered one function, the restore of the
hook, and `TearDownSuite` calls nothing; the teardown of the test calls user
function 4 only; the whole log is that one call, and the hook is still the
stub when the suite is over.  The function registered in the suite setup is
called by no teardown, where the claim has it called once by
`TearDownSuite`. -/
theorem lifecycle_hook_in_suite_setup_never_called :
    (runSuite idleHost sameType hookSuiteRegs hookTests
        (start (blankWorld (emptySuite false)))).map
        (fun r => (r.suitePhase, r.tests, r.final.calls, r.final.world.hooks 0))
      = some
        ({ registered := [CleanupFunc.restore (Restorer.hook 0 (OutputFunc.real 0))],
           called := [] },
          [{ registered := [CleanupFunc.user 4], called := [CleanupFunc.user 4] }],
          [CleanupFunc.user 4],
          OutputFunc.stub [1, 2] none) := by
  decide

/-- The lifecycle with a suite setup that registers through `PatchEnvironment`,
`PatchEnvPathPrepend` and `PatchValue` only.  Take a run that completes:
`SetUpSuite`, calls of these three helpers in the suite setup, any number of
test cycles (`SetUpTest`; calls of `AddCleanup`, of the patch helpers and of
`HookCommandOutput`; `TearDownTest`), then `TearDownSuite`, with cleanup
functions that leave the registry alone.  Then `TearDownSuite` calls exactly
the functions registered in the suite setup, last to first; the `TearDownTest`
of each test calls exactly the functions registered in that test, last to
first; every registering call registered one function; and the teardowns made
these calls and no other, so that each registration is answered by one call,
in its own teardown. -/
theorem lifecycle_calls_each_registration_once (h : Host)
    (assignable : GoType → GoType → Bool) (suiteRegs : List Registration)
    (tests : List (List Registration)) (e : Exec)
    (hframe : ∀ id w, (h.run id w).suite = w.suite)
    (hpatch : ∀ r ∈ suiteRegs, r.isPatch = true)
    (hdone : (runSuite h assignable suiteRegs tests e).isSome = true) :
    ∃ run, runSuite h assignable suiteRegs tests e = some run ∧
      run.suitePhase.called = run.suitePhase.registered.reverse ∧
      (∀ ph ∈ run.tests, ph.called = ph.registered.reverse) ∧
      run.suitePhase.registered.length = suiteRegs.length ∧
      run.tests.map (fun ph => ph.registered.length) = tests.map List.length ∧
      run.final.calls
        = e.calls ++ (run.tests.map Phase.called).flatten ++ run.suitePhase.called := by
  obtain ⟨run, hrun⟩ := Option.isSome_iff_exists.mp hdone
  exact ⟨run, hrun, runSuite_spec h hframe assignable suiteRegs hpatch tests e run hrun⟩

/-- The lifecycle theorem at a concrete suite: two patches in the suite setup,
then two tests of two registrations each, with cleanup functions that do
nothing. -/
theorem lifecycle_calls_each_registration_once_witness :
    (∀ id w, (idleHost.run id w).suite = w.suite) ∧
      (∀ r ∈ sampleSuiteRegs, r.isPatch = true) ∧
      (runSuite idleHost sameType sampleSuiteRegs sampleTests
        (start (blankWorld (emptySuite false)))).isSome = true ∧
      ∃ run, runSuite idleHost sameType sampleSuiteRegs sampleTests
          (start (blankWorld (emptySuite false))) = some run ∧
        run.suitePhase.called = run.suitePhase.registered.reverse ∧
        (∀ ph ∈ run.tests, ph.called = ph.registered.reverse) ∧
        run.suitePhase.registered.length = sampleSuiteRegs.length ∧
        run.tests.map (fun ph => ph.registered.length) = sampleTests.map List.length ∧
        run.final.calls
          = (start (blankWorld (emptySuite false))).calls
            ++ (run.tests.map Phase.called).flatten ++ run.suitePhase.called :=
  ⟨fun _ _ => rfl, by decide, by decide,
    lifecycle_calls_each_registration_once idleHost sameType sampleSuiteRegs sampleTests
      (start (blankWorld (emptySuite false))) (fun _ _ => rfl) (by decide) (by decide)⟩

/-- The sample suite, computed: what each phase registered, what each teardown
called, and the whole log. -/
theorem runSuite_sample_phases :
    (runSuite idleHost sameType sampleSuiteRegs sampleTests
        (start (blankWorld (emptySuite false)))).map
        (fun r => (r.suitePhase, r.tests, r.final.calls))
      = some
        ({ registered :=
             [CleanupFunc.restore (Restorer.env "FOO" none),
               CleanupFunc.restore (Restorer.value 3 { typ := 0, data := 0 })],
           called :=
             [CleanupFunc.restore (Restorer.value 3 { typ := 0, data := 0 }),
               CleanupFunc.restore (Restorer.env "FOO" none)] },
          [{ registered :=
               [CleanupFunc.user 4, CleanupFunc.restore (Restorer.env "FOO" (some "bar"))],
             called :=
               [CleanupFunc.restore (Restorer.env "FOO" (some "bar")), CleanupFunc.user 4] },
            { registered :=
                [CleanupFunc.restore (Restorer.hook 0 (OutputFunc.real 0)), CleanupFunc.user 4],
              called :=
                [CleanupFunc.user 4,
                  CleanupFunc.restore (Restorer.hook 0 (OutputFunc.real 0))] }],
          [CleanupFunc.restore (Restorer.env "FOO" (some "bar")), CleanupFunc.user 4,
            CleanupFunc.user 4, CleanupFunc.restore (Restorer.hook 0 (OutputFunc.real 0)),
            CleanupFunc.restore (Restorer.value 3 { typ := 0, data := 0 }),
            CleanupFunc.restore (Restorer.env "FOO" none)]) := by
  decide

/-- C14: whatever the cleanup functions do, registering further functions
included, `TearDownTest` calls the functions of the test stack as it was when
`TearDownTest` was called, last to first: it makes as many calls as that stack
was long, and calls no function that was not on it.  The same holds for
`TearDownSuite` and the suite stack. -/
theorem tearDown_iterates_over_stack_at_call (h : Host) (e : Exec) :
    ((CleanupSuite.TearDownTest h e).calls.drop e.calls.length
        = e.world.suite.testStack.reverse ∧
      ((CleanupSuite.TearDownTest h e).calls.drop e.calls.length).length
        = e.world.suite.testStack.length ∧
      ∀ g, g ∉ e.world.suite.testStack →
        g ∉ (CleanupSuite.TearDownTest h e).calls.drop e.calls.length) ∧
      ((CleanupSuite.TearDownSuite h e).calls.drop e.calls.length
        = e.world.suite.suiteStack.reverse ∧
      ((CleanupSuite.TearDownSuite h e).calls.drop e.calls.length).length
        = e.world.suite.suiteStack.length ∧
      ∀ g, g ∉ e.world.suite.suiteStack →
        g ∉ (CleanupSuite.TearDownSuite h e).calls.drop e.calls.length) := by
  have htest : (CleanupSuite.TearDownTest h e).calls.drop e.calls.length
      = e.world.suite.testStack.reverse := by
    rw [tearDownTest_calls, List.drop_left]
  have hsuite : (CleanupSuite.TearDownSuite h e).calls.drop e.calls.length
      = e.world.suite.suiteStack.reverse := by
    rw [tearDownSuite_calls, List.drop_left]
  refine ⟨⟨htest, ?_, ?_⟩, ⟨hsuite, ?_, ?_⟩⟩
  · rw [htest, List.length_reverse]
  · intro g hg; rw [htest]; simpa using hg
  · rw [hsuite, List.length_reverse]
  · intro g hg; rw [hsuite]; simpa using hg

/-- The scenario of C14: user function 0, on the test stack, registers user
function 9 with `AddCleanup` while `TearDownTest` runs; user function 9 is on
the test stack afterwards and was not called.  Likewise user function 1 with
`AddSuiteCleanup` under `TearDownSuite`. -/
theorem tearDown_registering_scenario :
    (CleanupSuite.TearDownTest registeringHost twoStacks).calls = [CleanupFunc.user 0] ∧
      (CleanupSuite.TearDownTest registeringHost twoStacks).world.suite.testStack
        = [CleanupFunc.user 0, CleanupFunc.user 9] ∧
      (CleanupSuite.TearDownSuite registeringHost twoStacks).calls = [CleanupFunc.user 1] ∧
      (CleanupSuite.TearDownSuite registeringHost twoStacks).world.suite.suiteStack
        = [CleanupFunc.user 1, CleanupFunc.user 9] := by
  decide

end Testing
